import Mathlib

/-
Verification of the SQL-Agent translation core (`sql_agent.py`).

Python strings are modelled as `List Char` (ASCII fragment: `str.upper`,
`str.lower`, `str.strip` and the regex class `\s` are modelled on their
ASCII behaviour, which covers every string the program manipulates).
The embedded relational store and the sample-row fetch are modelled as
explicit function parameters returning `Except`.
-/

/-- Python strings, modelled as lists of characters. -/
abbrev Str := List Char

/-- Literal helper: a Lean string literal as a `Str`. -/
def lit (s : String) : Str := s.toList

/-- Characters matched by Python's `\s` and stripped by `str.strip()` (ASCII). -/
def isPySpace (c : Char) : Bool :=
  c == ' ' || c == '\t' || c == '\n' || c == '\r' || c == '\x0b' || c == '\x0c'

/-- Python `str.upper()` (ASCII, character-wise). -/
def upper (s : Str) : Str := s.map Char.toUpper

/-- Python `str.lower()` (ASCII, character-wise). -/
def lower (s : Str) : Str := s.map Char.toLower

/-- Python `str.lstrip()`. -/
def lstrip (s : Str) : Str := s.dropWhile isPySpace

/-- Python `str.rstrip()`. -/
def rstrip (s : Str) : Str := (s.reverse.dropWhile isPySpace).reverse

/-- Python `str.strip()`. -/
def strip (s : Str) : Str := rstrip (lstrip s)

/-- Index of the first occurrence of `needle` in a string, Python `str.find`
(restricted to the guarded uses in the source, where the needle occurs). -/
def findSub (needle : Str) : Str → Option Nat
  | [] => if needle = [] then some 0 else none
  | c :: rest =>
    if needle.isPrefixOf (c :: rest) then some 0
    else (findSub needle rest).map (· + 1)

/-- Python `needle in haystack` substring test. -/
def containsSub (needle hay : Str) : Bool := (findSub needle hay).isSome

/-- The fixed keyword list of `_clean_sql_query` and `execute_query`. -/
def sql_keywords : List Str :=
  [lit "SELECT", lit "INSERT", lit "UPDATE", lit "DELETE",
   lit "CREATE", lit "DROP", lit "ALTER", lit "WITH"]

/-- One left-to-right pass of `re.sub(r'\x60\x60\x60sql\s*', '', s)`:
on an occurrence of the fence-with-tag delimiter the six delimiter characters
are dropped and the flag records that the (greedy) `\s*` run following the
match is being consumed; any other character is copied. -/
def rsfGo : Bool → Str → Str
  | _, [] => []
  | _, '\x60' :: '\x60' :: '\x60' :: 's' :: 'q' :: 'l' :: rest => rsfGo true rest
  | skipping, c :: rest =>
    if skipping && isPySpace c then rsfGo skipping rest
    else c :: rsfGo false rest

/-- `re.sub(r'\x60\x60\x60sql\s*', '', sql_query)` (first substitution in
`_clean_sql_query`). -/
def removeSqlFence (s : Str) : Str := rsfGo false s

/-- One left-to-right pass of `re.sub(r'\x60\x60\x60\s*', '', s)`. -/
def rtfGo : Bool → Str → Str
  | _, [] => []
  | _, '\x60' :: '\x60' :: '\x60' :: rest => rtfGo true rest
  | skipping, c :: rest =>
    if skipping && isPySpace c then rtfGo skipping rest
    else c :: rtfGo false rest

/-- `re.sub(r'\x60\x60\x60\s*', '', sql_query)` (second substitution in
`_clean_sql_query`). -/
def removeTicksFence (s : Str) : Str := rtfGo false s

/-- The keyword scan of `_clean_sql_query`: the keywords are tried in the
fixed list order; the first one contained (case-insensitively) in the text
wins, and the text is truncated at that keyword's first occurrence. -/
def keywordTruncate (s : Str) : Str :=
  match sql_keywords.find? (fun kw => containsSub kw (upper s)) with
  | some kw =>
    match findSub kw (upper s) with
    | some i => s.drop i
    | none => s
  | none => s

/-- `SQLAgent._clean_sql_query`: remove fence delimiters, strip whitespace,
truncate at the keyword found by the scan, and terminate with a semicolon. -/
def _clean_sql_query (sql_query : Str) : Str :=
  let s1 := removeSqlFence sql_query
  let s2 := removeTicksFence s1
  let s3 := strip s2
  let s4 := keywordTruncate s3
  if (lit ";").isSuffixOf s4 then s4 else s4 ++ lit ";"

/-- The three failure shapes of `execute_query`, distinguished by the branch
of the Python code that raises them (all are re-raised wrapped in the
`Error executing SQL query:` prefix, rendered by `renderAgentError`). -/
inductive AgentError where
  | emptyQuery : AgentError
  | invalidFormat (got : Str) : AgentError
  | queryExecution (msg : Str) : AgentError
deriving DecidableEq

/-- The exact exception message produced by `execute_query` for each failure:
the outer `except` clause wraps every inner message. -/
def renderAgentError : AgentError → Str
  | AgentError.emptyQuery =>
      lit "Error executing SQL query: Empty SQL query"
  | AgentError.invalidFormat got =>
      lit "Error executing SQL query: Invalid SQL query format. Query must start with a SQL keyword. Got: "
        ++ got ++ lit "..."
  | AgentError.queryExecution m =>
      lit "Error executing SQL query: " ++ m

/-- The keyword-prefix format check of `execute_query`:
`any(query_upper.startswith(keyword) for keyword in sql_keywords)` where
`query_upper = sql_query.strip().upper()`. -/
def startsWithKeyword (sql_query : Str) : Bool :=
  sql_keywords.any (fun kw => kw.isPrefixOf (upper (strip sql_query)))

/-- `SQLAgent.execute_query`, instrumented: the store (`pd.read_sql_query`
against the engine) is a function parameter, and the second component counts
how many times it is invoked (0 or 1). -/
def execute_query_instr {ρ : Type} (store : Str → Except Str ρ) (sql_query : Str) :
    Except AgentError ρ × Nat :=
  if strip sql_query = [] then
    (Except.error AgentError.emptyQuery, 0)
  else if startsWithKeyword sql_query = false then
    (Except.error (AgentError.invalidFormat (sql_query.take 50)), 0)
  else
    match store sql_query with
    | Except.ok r => (Except.ok r, 1)
    | Except.error m => (Except.error (AgentError.queryExecution m), 1)

/-- `SQLAgent.execute_query`: the result component of the instrumented run. -/
def execute_query {ρ : Type} (store : Str → Except Str ρ) (sql_query : Str) :
    Except AgentError ρ :=
  (execute_query_instr store sql_query).1

/-- Column metadata as produced by the inspector (`col['name']`, `col['type']`). -/
structure ColumnMeta where
  name : Str
  type : Str
deriving DecidableEq

/-- One table's entry of the Schema Snapshot dictionary built by
`_get_database_schema`: column names, column declared types, sample rows
(each row modelled by its rendered `{row}` text). -/
structure TableInfo where
  columns : List Str
  types : List (Str × Str)
  sample_data : List Str
deriving DecidableEq

/-- `SQLAgent._get_database_schema`: the inspector's table list and the
`pd.read_sql_query` call are parameters; a failing sample fetch yields an
empty sample list (the warning is printed, not propagated). The Python dict
(insertion-ordered) is modelled as an association list. -/
def _get_database_schema (tables : List (Str × List ColumnMeta))
    (read_sql_query : Str → Except Str (List Str)) : List (Str × TableInfo) :=
  tables.map fun t =>
    (t.1,
      { columns := t.2.map ColumnMeta.name
        types := t.2.map fun c => (c.name, c.type)
        sample_data :=
          match read_sql_query (lit "SELECT * FROM " ++ t.1 ++ lit " LIMIT 5") with
          | Except.ok rows => rows
          | Except.error _ => [] })

/-- Decimal rendering of a natural number, for the `Row {i+1}` labels. -/
def natStr (n : Nat) : Str := (Nat.repr n).toList

/-- One `  - col (type)` line of the schema prompt. -/
def colLine (c ty : Str) : Str := lit "  - " ++ c ++ lit " (" ++ ty ++ lit ")\n"

/-- One `  Row {i+1}: {row}` line of the schema prompt (`i` is the 0-based
enumeration index). -/
def rowLine (i : Nat) (row : Str) : Str :=
  lit "  Row " ++ natStr (i + 1) ++ lit ": " ++ row ++ lit "\n"

/-- The `Sample data:` section of one table's block: present only when the
table has sample rows, and showing only the first 3 (`sample_data[:3]`). -/
def sampleSection (rows : List Str) : Str :=
  if rows = [] then []
  else lit "Sample data:\n" ++ ((rows.take 3).enum.map (fun p => rowLine p.1 p.2)).flatten

/-- One table's block of the schema prompt. -/
def renderTable (t : Str) (info : TableInfo) : Str :=
  lit "Table: " ++ t ++ lit "\n" ++ lit "Columns:\n"
    ++ (info.types.map (fun p => colLine p.1 p.2)).flatten
    ++ sampleSection info.sample_data
    ++ lit "\n"

/-- The `RELATIONSHIP HINTS` block appended when the schema has more than
one table. -/
def relationshipHints : Str :=
  lit "RELATIONSHIP HINTS:\n"
    ++ lit "- When joining tables, look for common column names (like \x27id\x27, \x27customer_id\x27, etc.)\n"
    ++ lit "- Use appropriate JOIN types (INNER, LEFT, RIGHT, FULL) based on the question\n"
    ++ lit "- Consider using table aliases for clarity in complex queries\n"
    ++ lit "- When comparing data across tables, use UNION or JOIN as appropriate\n\n"

/-- The header plus per-table loop of `_create_schema_prompt`. -/
def schemaBody (schema : List (Str × TableInfo)) : Str :=
  schema.foldl (fun acc t => acc ++ renderTable t.1 t.2) (lit "Database Schema:\n\n")

/-- `SQLAgent._create_schema_prompt`. -/
def _create_schema_prompt (schema : List (Str × TableInfo)) : Str :=
  if 1 < schema.length then schemaBody schema ++ relationshipHints
  else schemaBody schema

/-- The numeric-column filter of `get_sample_queries`:
`'int' in str(dtype).lower() or 'float' in str(dtype).lower()`. -/
def numericCols (types : List (Str × Str)) : List Str :=
  (types.filter fun p =>
    containsSub (lit "int") (lower p.2) || containsSub (lit "float") (lower p.2)).map Prod.fst

/-- The questions contributed by one table in `get_sample_queries`: three
basic templates, plus three numeric templates on the first numeric column. -/
def perTableQueries (t : Str) (info : TableInfo) : List Str :=
  [lit "Show me the first 10 rows from " ++ t,
   lit "Count the total number of records in " ++ t,
   lit "Show me all unique values in the first column of " ++ t]
  ++ match numericCols info.types with
     | [] => []
     | c :: _ =>
       [lit "Calculate the average of " ++ c ++ lit " in " ++ t,
        lit "Find the maximum value of " ++ c ++ lit " in " ++ t,
        lit "Show me the top 5 records by " ++ c ++ lit " in " ++ t]

/-- `SQLAgent.get_sample_queries`: accumulate per-table templates over the
snapshot, return the first 10 (`sample_queries[:10]`). No model call. -/
def get_sample_queries (schema : List (Str × TableInfo)) : List Str :=
  (schema.foldl (fun acc t => acc ++ perTableQueries t.1 t.2) []).take 10

/-! ### Helper lemmas about the string model -/

/-- Boolean prefix test agrees with the `IsPrefix` relation. -/
theorem isPrefixOf_eq_iff (l₁ l₂ : Str) : l₁.isPrefixOf l₂ = true ↔ l₁ <+: l₂ := by
  exact List.isPrefixOf_iff_prefix

/-- Correctness of `findSub`: a returned index is an occurrence, and it is
the first one. -/
theorem findSub_spec (n : Str) (h : Str) :
    ∀ i : Nat, findSub n h = some i →
      n.isPrefixOf (h.drop i) = true ∧ ∀ j, j < i → n.isPrefixOf (h.drop j) = false := by
  induction h with
  | nil =>
    intro i hf
    unfold findSub at hf
    by_cases hn : n = ([] : Str)
    · subst hn
      simp only [if_true, Option.some.injEq, reduceIte] at hf
      subst hf
      exact ⟨rfl, fun j hj => absurd hj (Nat.not_lt_zero j)⟩
    · simp [hn] at hf
  | cons c rest ih =>
    intro i hf
    by_cases hp : n.isPrefixOf (c :: rest) = true
    · unfold findSub at hf
      rw [if_pos hp] at hf
      cases hf
      exact ⟨hp, fun j hj => absurd hj (Nat.not_lt_zero j)⟩
    · have hp' : n.isPrefixOf (c :: rest) = false := by
        cases hb : n.isPrefixOf (c :: rest)
        · rfl
        · exact absurd hb hp
      unfold findSub at hf
      rw [hp'] at hf
      rw [if_neg Bool.false_ne_true] at hf
      cases hi : findSub n rest with
      | none => rw [hi] at hf; simp at hf
      | some i' =>
        rw [hi] at hf
        simp at hf
        subst hf
        obtain ⟨h1, h2⟩ := ih i' hi
        refine ⟨by simpa [List.drop_succ_cons] using h1, fun j hj => ?_⟩
        cases j with
        | zero => simpa using hp'
        | succ j' => simpa [List.drop_succ_cons] using h2 j' (by omega)

/-- A prefix occurrence makes the substring test succeed. -/
theorem containsSub_of_isPrefixOf {n h : Str} (hp : n.isPrefixOf h = true) :
    containsSub n h = true := by
  cases h with
  | nil =>
    have hn : n = [] := List.prefix_nil.mp ((isPrefixOf_eq_iff n []).mp hp)
    subst hn; rfl
  | cons c rest => simp [containsSub, findSub, hp]

/-- `find?` on a split list whose left part fails the predicate. -/
theorem find?_append_first {α : Type} (p : α → Bool) (a : α) (l₂ : List α)
    (l₁ : List α) (hall : ∀ x ∈ l₁, p x = false) (ha : p a = true) :
    List.find? p (l₁ ++ a :: l₂) = some a := by
  induction l₁ with
  | nil => simp [List.find?_cons, ha]
  | cons b l₁ ih =>
    have hb : p b = false := hall b (List.mem_cons_self b l₁)
    simp only [List.cons_append, List.find?_cons, hb]
    exact ih fun x hx => hall x (List.mem_cons_of_mem _ hx)

/-- `any` is false when the predicate fails everywhere. -/
theorem any_eq_false_of {α : Type} {p : α → Bool} :
    ∀ {l : List α}, (∀ x ∈ l, p x = false) → l.any p = false := by
  intro l h
  induction l with
  | nil => rfl
  | cons c cs ih =>
    simp only [List.any_cons, Bool.or_eq_false_iff]
    exact ⟨h c (List.mem_cons_self c cs), ih fun x hx => h x (List.mem_cons_of_mem _ hx)⟩

/-- The head surviving a `dropWhile` fails the predicate. -/
theorem dropWhile_head_false {α : Type} {p : α → Bool} :
    ∀ {l : List α} {c : α} {r : List α}, List.dropWhile p l = c :: r → p c = false := by
  intro l
  induction l with
  | nil => intro c r h; cases h
  | cons a l ih =>
    intro c r h
    by_cases ha : p a
    · rw [List.dropWhile_cons_of_pos ha] at h; exact ih h
    · rw [List.dropWhile_cons_of_neg ha] at h
      injection h with h1 _
      subst h1
      simpa using ha

/-- `dropWhile` only removes a prefix. -/
theorem dropWhile_suffix_ex {α : Type} (p : α → Bool) :
    ∀ l : List α, ∃ u, u ++ List.dropWhile p l = l := by
  intro l
  induction l with
  | nil => exact ⟨[], rfl⟩
  | cons a l ih =>
    by_cases ha : p a
    · obtain ⟨u, hu⟩ := ih
      exact ⟨a :: u, by simp [List.dropWhile_cons_of_pos ha, hu]⟩
    · exact ⟨[], by simp [List.dropWhile_cons_of_neg ha]⟩

/-- `rstrip` only removes a suffix. -/
theorem rstrip_prefix_ex (l : Str) : ∃ u, rstrip l ++ u = l := by
  obtain ⟨u, hu⟩ := dropWhile_suffix_ex isPySpace l.reverse
  refine ⟨u.reverse, ?_⟩
  have h := congrArg List.reverse hu
  simpa [rstrip, List.reverse_append] using h

/-- The head of a nonempty `rstrip` result is the head of the input. -/
theorem rstrip_head {l : Str} {c : Char} {r : Str} (h : rstrip l = c :: r) :
    ∃ r₂, l = c :: r₂ := by
  obtain ⟨u, hu⟩ := rstrip_prefix_ex l
  rw [h] at hu
  exact ⟨r ++ u, by simpa using hu.symm⟩

/-- A nonempty stripped string starts with a non-space character. -/
theorem strip_head_not_space {s : Str} {c : Char} {r : Str} (h : strip s = c :: r) :
    isPySpace c = false := by
  unfold strip at h
  obtain ⟨r₂, h₂⟩ := rstrip_head h
  exact dropWhile_head_false (p := isPySpace) h₂

/-- A nonempty stripped string ends with a non-space character. -/
theorem strip_rev_head_not_space {s : Str} {c : Char} {r : Str}
    (h : (strip s).reverse = c :: r) : isPySpace c = false := by
  have he : (strip s).reverse = List.dropWhile isPySpace (lstrip s).reverse := by
    simp [strip, rstrip]
  rw [he] at h
  exact dropWhile_head_false h

/-- Strings protected at both ends are fixed by `strip`. -/
theorem strip_eq_self_of (x : Str)
    (hhead : ∀ c r, x = c :: r → isPySpace c = false)
    (hlast : ∀ c r, x.reverse = c :: r → isPySpace c = false) : strip x = x := by
  cases hx : x with
  | nil => rfl
  | cons c r =>
    have hc := hhead c r hx
    have h1 : lstrip (c :: r) = c :: r :=
      List.dropWhile_cons_of_neg (by simp [hc])
    unfold strip
    rw [h1]
    cases hrx : (c :: r).reverse with
    | nil => simp at hrx
    | cons d rr =>
      have hd := hlast d rr (by rw [hx]; exact hrx)
      unfold rstrip
      rw [hrx, List.dropWhile_cons_of_neg (by simp [hd]), ← hrx, List.reverse_reverse]

/-- Appending the terminator to a string whose head is protected keeps it
stripped. -/
theorem strip_append_semi (t : Str)
    (ht : ∀ c r, t = c :: r → isPySpace c = false) :
    strip (t ++ lit ";") = t ++ lit ";" := by
  apply strip_eq_self_of
  · intro c r h
    cases t with
    | nil =>
      simp only [List.nil_append] at h
      injection h with h1 _
      subst h1
      decide
    | cons a t' =>
      rw [List.cons_append] at h
      injection h with h1 _
      subst h1
      exact ht a t' rfl
  · intro c r h
    rw [List.reverse_append] at h
    injection h with h1 _
    subst h1
    decide

/-- Dropping a trailing newline from a stripped nonempty string. -/
theorem strip_append_nl (t : Str)
    (hh : ∀ c r, t = c :: r → isPySpace c = false)
    (hl : ∀ c r, t.reverse = c :: r → isPySpace c = false) :
    strip (t ++ lit "\n") = t := by
  cases t with
  | nil => decide
  | cons c w =>
    have hc := hh c w rfl
    unfold strip
    have h1 : lstrip ((c :: w) ++ lit "\n") = (c :: w) ++ lit "\n" := by
      rw [List.cons_append]
      exact List.dropWhile_cons_of_neg (by simp [hc])
    rw [h1]
    unfold rstrip
    have h2 : ((c :: w) ++ lit "\n").reverse = '\n' :: (c :: w).reverse := by
      simp [lit]
    rw [h2, List.dropWhile_cons_of_pos (by decide)]
    cases hr : (c :: w).reverse with
    | nil => simp at hr
    | cons d rr =>
      have hd := hl d rr hr
      rw [List.dropWhile_cons_of_neg (by simp [hd]), ← hr, List.reverse_reverse]

/-! ### Helper lemmas about the fence-removal passes -/

/-- Unfolding `rsfGo` on a character that cannot open a fence. -/
theorem rsfGo_eq_cons (sk : Bool) (c : Char) (rest : Str) (hc : c ≠ '\x60') :
    rsfGo sk (c :: rest) =
      if sk && isPySpace c then rsfGo sk rest else c :: rsfGo false rest := by
  rw [rsfGo.eq_def]
  split
  · rename_i heq; cases heq
  · rename_i heq
    injection heq with h1 _
    exact absurd h1 hc
  · rename_i heq
    injection heq with h1 h2
    subst h1; subst h2
    rfl

/-- `rsfGo` removes a fence-with-tag delimiter and starts skipping. -/
theorem rsfGo_fence (sk : Bool) (rest : Str) :
    rsfGo sk ('\x60' :: '\x60' :: '\x60' :: 's' :: 'q' :: 'l' :: rest)
      = rsfGo true rest := by
  cases sk <;> rfl

/-- With the skip flag up, whitespace is consumed. -/
theorem rsfGo_skip (c : Char) (rest : Str) (hc : isPySpace c = true) :
    rsfGo true (c :: rest) = rsfGo true rest := by
  have hne : c ≠ '\x60' := by
    intro h; subst h; simp [isPySpace] at hc
  rw [rsfGo_eq_cons true c rest hne]
  simp [hc]

/-- With the skip flag up, a non-space non-fence character is copied and the
flag drops. -/
theorem rsfGo_true_emit (c : Char) (rest : Str) (hc : c ≠ '\x60')
    (hs : isPySpace c = false) :
    rsfGo true (c :: rest) = c :: rsfGo false rest := by
  rw [rsfGo_eq_cons true c rest hc]
  simp [hs]

/-- A backtick-free segment passes through the first substitution unchanged. -/
theorem rsfGo_pass {m : Str} (hm : '\x60' ∉ m) (rest : Str) :
    rsfGo false (m ++ rest) = m ++ rsfGo false rest := by
  induction m with
  | nil => rfl
  | cons c w ih =>
    have hc : c ≠ '\x60' := fun h => hm (h ▸ List.mem_cons_self c w)
    rw [List.cons_append, rsfGo_eq_cons false c (w ++ rest) hc]
    simp only [Bool.false_and, Bool.false_eq_true, if_false]
    rw [ih fun hmem => hm (List.mem_cons_of_mem _ hmem)]
    rfl

/-- Unfolding `rtfGo` on a character that cannot open a fence. -/
theorem rtfGo_eq_cons (sk : Bool) (c : Char) (rest : Str) (hc : c ≠ '\x60') :
    rtfGo sk (c :: rest) =
      if sk && isPySpace c then rtfGo sk rest else c :: rtfGo false rest := by
  rw [rtfGo.eq_def]
  split
  · rename_i heq; cases heq
  · rename_i heq
    injection heq with h1 _
    exact absurd h1 hc
  · rename_i heq
    injection heq with h1 h2
    subst h1; subst h2
    rfl

/-- `rtfGo` removes a bare fence delimiter and starts skipping. -/
theorem rtfGo_fence (sk : Bool) (rest : Str) :
    rtfGo sk ('\x60' :: '\x60' :: '\x60' :: rest) = rtfGo true rest := by
  cases sk <;> rfl

/-- With the skip flag up, a non-space non-fence character is copied and the
flag drops. -/
theorem rtfGo_true_emit (c : Char) (rest : Str) (hc : c ≠ '\x60')
    (hs : isPySpace c = false) :
    rtfGo true (c :: rest) = c :: rtfGo false rest := by
  rw [rtfGo_eq_cons true c rest hc]
  simp [hs]

/-- A backtick-free segment passes through the second substitution unchanged. -/
theorem rtfGo_pass {m : Str} (hm : '\x60' ∉ m) (rest : Str) :
    rtfGo false (m ++ rest) = m ++ rtfGo false rest := by
  induction m with
  | nil => rfl
  | cons c w ih =>
    have hc : c ≠ '\x60' := fun h => hm (h ▸ List.mem_cons_self c w)
    rw [List.cons_append, rtfGo_eq_cons false c (w ++ rest) hc]
    simp only [Bool.false_and, Bool.false_eq_true, if_false]
    rw [ih fun hmem => hm (List.mem_cons_of_mem _ hmem)]
    rfl

/-! ### Helper lemmas about prefixes, folds and infixes -/

/-- A prefix of `a ++ [x]` is a prefix of `a` or the whole string. -/
theorem prefix_snoc_cases {l a : Str} {x : Char} (h : l <+: a ++ [x]) :
    l <+: a ∨ l = a ++ [x] := by
  by_cases hl : l.length ≤ a.length
  · exact Or.inl (List.prefix_of_prefix_length_le h (List.prefix_append a [x]) hl)
  · refine Or.inr (h.eq_of_length ?_)
    have h1 : l.length ≤ (a ++ [x]).length := h.length_le
    rw [List.length_append, List.length_singleton] at h1 ⊢
    omega

/-- Folding `acc ++ f x` over a list is the initial value followed by the
flattened per-element contributions. -/
theorem foldl_append_eq {α β : Type} (f : α → List β) (l : List α) :
    ∀ init : List β,
      l.foldl (fun acc x => acc ++ f x) init = init ++ (l.map f).flatten := by
  induction l with
  | nil => intro init; simp
  | cons a l ih =>
    intro init
    simp only [List.foldl_cons, List.map_cons, List.flatten_cons]
    rw [ih]
    simp [List.append_assoc]

/-- An infix survives appending on the right. -/
theorem infix_append_left {x a : Str} (b : Str) (h : x <:+: a) : x <:+: a ++ b := by
  rcases h with ⟨s, t, hst⟩
  exact ⟨s, t ++ b, by rw [← hst]; simp [List.append_assoc]⟩

/-- An infix survives appending on the left. -/
theorem infix_append_right {x b : Str} (a : Str) (h : x <:+: b) : x <:+: a ++ b := by
  rcases h with ⟨s, t, hst⟩
  exact ⟨a ++ s, t, by rw [← hst]; simp [List.append_assoc]⟩

/-- Each member of a list of strings is an infix of the flattening. -/
theorem infix_flatten_of_mem {x : Str} {L : List Str} (h : x ∈ L) :
    x <:+: L.flatten := by
  obtain ⟨s, t, hst⟩ := List.append_of_mem h
  subst hst
  exact ⟨s.flatten, t.flatten, by simp⟩

/-- A query that strips to nothing cannot pass the keyword-prefix check. -/
theorem startsWithKeyword_of_strip_nil {s : Str} (h : strip s = []) :
    startsWithKeyword s = false := by
  unfold startsWithKeyword
  rw [h]
  decide

/-! ### Claim theorems -/

/-- Claim C3: the statement is handed to the embedded store (the store
invocation count of `execute_query` is 1) exactly when the keyword-prefix
check passes — the prefix check is the only gate before execution. -/
theorem C3_prefix_gate {ρ : Type} (store : Str → Except Str ρ) (sql_query : Str) :
    (execute_query_instr store sql_query).2 = 1 ↔ startsWithKeyword sql_query = true := by
  by_cases h1 : strip sql_query = []
  · have h2 := startsWithKeyword_of_strip_nil h1
    simp [execute_query_instr, h1, h2]
  · by_cases h2 : startsWithKeyword sql_query = true
    · cases hst : store sql_query <;> simp [execute_query_instr, h1, h2, hst]
    · have h2' : startsWithKeyword sql_query = false := by
        cases hb : startsWithKeyword sql_query
        · rfl
        · exact absurd hb h2
      simp [execute_query_instr, h1, h2']

/-- Claim C6: when the store fails, `execute_query` returns exactly one
`queryExecution` error wrapping the store's message (rendered with the
`Error executing SQL query:` prefix); the store was invoked exactly once
(no retry) and no result is returned. -/
theorem C6_wraps_execution_error {ρ : Type} (store : Str → Except Str ρ) (sql m : Str)
    (hkw : startsWithKeyword sql = true) (hst : store sql = Except.error m) :
    execute_query store sql = Except.error (AgentError.queryExecution m)
    ∧ (execute_query_instr store sql).2 = 1
    ∧ renderAgentError (AgentError.queryExecution m) = lit "Error executing SQL query: " ++ m := by
  have h1 : strip sql ≠ [] := by
    intro h
    rw [startsWithKeyword_of_strip_nil h] at hkw
    simp at hkw
  refine ⟨?_, ?_, rfl⟩
  · simp [execute_query, execute_query_instr, h1, hkw, hst]
  · simp [execute_query_instr, h1, hkw, hst]

/-- Witness for C6 at a concrete failing store. -/
theorem C6_wraps_execution_error_witness :
    startsWithKeyword (lit "SELECT * FROM t10") = true
    ∧ execute_query (fun _ => (Except.error (lit "no such table: t10") : Except Str Nat))
        (lit "SELECT * FROM t10")
        = Except.error (AgentError.queryExecution (lit "no such table: t10")) := by
  exact ⟨by decide,
    (C6_wraps_execution_error (fun _ => (Except.error (lit "no such table: t10") : Except Str Nat))
      (lit "SELECT * FROM t10") (lit "no such table: t10") (by decide) rfl).1⟩

/-- Claim C2 as stated is false: a whitespace-only input does not start with
an allowed keyword after trimming, yet `execute_query` fails with the
distinct empty-query error, not with an `invalidFormat` error carrying the
first 50 characters. -/
theorem C2_counterexample :
    execute_query (fun _ => Except.ok (0 : Nat)) (lit "   ")
        = Except.error AgentError.emptyQuery
    ∧ AgentError.emptyQuery ≠ AgentError.invalidFormat ((lit "   ").take 50)
    ∧ (execute_query_instr (fun _ => Except.ok (0 : Nat)) (lit "   ")).2 = 0 := by
  exact ⟨rfl, fun h => AgentError.noConfusion h, rfl⟩

/-- Claim C2 (amended to inputs that are nonempty after trimming): such an
input failing the keyword-prefix check makes `execute_query` fail with the
`invalidFormat` error carrying the first 50 characters of the text, before
any store invocation, distinguishable from a `queryExecution` error. -/
theorem C2_invalid_format {ρ : Type} (store : Str → Except Str ρ) (sql : Str)
    (hne : strip sql ≠ []) (hkw : startsWithKeyword sql = false) :
    execute_query store sql = Except.error (AgentError.invalidFormat (sql.take 50))
    ∧ (execute_query_instr store sql).2 = 0
    ∧ (∀ m, AgentError.invalidFormat (sql.take 50) ≠ AgentError.queryExecution m)
    ∧ renderAgentError (AgentError.invalidFormat (sql.take 50)) =
        lit "Error executing SQL query: Invalid SQL query format. Query must start with a SQL keyword. Got: "
          ++ sql.take 50 ++ lit "..." := by
  refine ⟨?_, ?_, fun m h => AgentError.noConfusion h, rfl⟩
  · simp [execute_query, execute_query_instr, hne, hkw]
  · simp [execute_query_instr, hne, hkw]

/-- Witness for C2 at a concrete non-SQL input. -/
theorem C2_invalid_format_witness :
    strip (lit "hello world") ≠ []
    ∧ startsWithKeyword (lit "hello world") = false
    ∧ execute_query (fun _ => Except.ok (0 : Nat)) (lit "hello world")
        = Except.error (AgentError.invalidFormat ((lit "hello world").take 50)) := by
  exact ⟨by decide, by decide,
    (C2_invalid_format (fun _ => Except.ok (0 : Nat)) (lit "hello world")
      (by decide) (by decide)).1⟩

/-- Claim C10: the keyword checks use no word boundaries. The format check of
`execute_query` accepts `WITHDRAWAL FROM accounts` (prefix `WITH`) and the
store is invoked on it, and the keyword scan of `_clean_sql_query` matches
`SELECT` inside the longer word `unselected`, truncating mid-word. -/
theorem C10_no_word_boundaries :
    startsWithKeyword (lit "WITHDRAWAL FROM accounts") = true
    ∧ execute_query (fun _ => Except.ok (0 : Nat)) (lit "WITHDRAWAL FROM accounts")
        = Except.ok 0
    ∧ (execute_query_instr (fun _ => Except.ok (0 : Nat)) (lit "WITHDRAWAL FROM accounts")).2 = 1
    ∧ execute_query (fun _ => (Except.error (lit "syntax error") : Except Str Nat))
        (lit "WITHDRAWAL FROM accounts")
        = Except.error (AgentError.queryExecution (lit "syntax error"))
    ∧ _clean_sql_query (lit "We unselected it") = lit "selected it;"
    ∧ containsSub (lit "SELECT") (upper (lit "We unselected it")) = true := by
  exact ⟨by decide, rfl, rfl, rfl, by decide, by decide⟩

/-- Characterisation of the keyword scan when a keyword is found: the first
keyword in list order that occurs wins, and the text is cut at its first
occurrence. -/
theorem keywordTruncate_eq_drop (t kw : Str) (l₁ l₂ : List Str) (i : Nat)
    (hsplit : sql_keywords = l₁ ++ kw :: l₂)
    (hbef : ∀ kw' ∈ l₁, containsSub kw' (upper t) = false)
    (hcon : containsSub kw (upper t) = true)
    (hfind : findSub kw (upper t) = some i) :
    keywordTruncate t = t.drop i := by
  unfold keywordTruncate
  rw [hsplit, find?_append_first (fun kw => containsSub kw (upper t)) kw l₂ l₁ hbef hcon]
  simp only [hfind]

/-- The keyword scan leaves a text with no keyword occurrence unchanged. -/
theorem keywordTruncate_of_no_keyword (t : Str)
    (h : ∀ kw ∈ sql_keywords, containsSub kw (upper t) = false) :
    keywordTruncate t = t := by
  unfold keywordTruncate
  have hn : sql_keywords.find? (fun kw => containsSub kw (upper t)) = none := by
    rw [List.find?_eq_none]
    intro x hx
    simp [h x hx]
  rw [hn]

/-- None of the allowed keywords contains a semicolon. -/
theorem semicolon_not_in_keywords : ∀ kw ∈ sql_keywords, ';' ∉ kw := by decide

/-- Claim C1 as stated is false: in `DROP TABLE t SELECT 1` the
earliest-occurring keyword is `DROP` (position 0), yet the scan truncates at
`SELECT` (position 13), because the keywords are tried in fixed list order,
not by position. -/
theorem C1_counterexample :
    findSub (lit "DROP") (upper (lit "DROP TABLE t SELECT 1")) = some 0
    ∧ findSub (lit "SELECT") (upper (lit "DROP TABLE t SELECT 1")) = some 13
    ∧ _clean_sql_query (lit "DROP TABLE t SELECT 1") = lit "SELECT 1;"
    ∧ _clean_sql_query (lit "DROP TABLE t SELECT 1") ≠ lit "DROP TABLE t SELECT 1;" := by
  exact ⟨by decide, by decide, by decide, by decide⟩

/-- Claim C1 (amended): the scan tries the keywords in the fixed list order
SELECT, INSERT, UPDATE, DELETE, CREATE, DROP, ALTER, WITH; the first keyword
of that list that occurs anywhere in the fence-stripped trimmed text wins,
and the returned string is the suffix starting at that keyword's first
case-insensitive occurrence, with a semicolon appended when missing. -/
theorem C1_keyword_truncation (s t kw : Str) (l₁ l₂ : List Str) (i : Nat)
    (ht : t = strip (removeTicksFence (removeSqlFence s)))
    (hsplit : sql_keywords = l₁ ++ kw :: l₂)
    (hbef : ∀ kw' ∈ l₁, containsSub kw' (upper t) = false)
    (hcon : containsSub kw (upper t) = true)
    (hfind : findSub kw (upper t) = some i) :
    _clean_sql_query s =
      (if (lit ";").isSuffixOf (t.drop i) then t.drop i else t.drop i ++ lit ";")
    ∧ kw.isPrefixOf ((upper t).drop i) = true
    ∧ ∀ j, j < i → kw.isPrefixOf ((upper t).drop j) = false := by
  obtain ⟨h1, h2⟩ := findSub_spec kw (upper t) i hfind
  refine ⟨?_, h1, h2⟩
  simp only [_clean_sql_query]
  rw [← ht, keywordTruncate_eq_drop t kw l₁ l₂ i hsplit hbef hcon hfind]

/-- Witness for C1 at the spec's scenario completion. -/
theorem C1_keyword_truncation_witness :
    containsSub (lit "SELECT") (upper (lit "Sure! SELECT COUNT(*) FROM employees")) = true
    ∧ findSub (lit "SELECT") (upper (lit "Sure! SELECT COUNT(*) FROM employees")) = some 6
    ∧ _clean_sql_query (lit "Sure! SELECT COUNT(*) FROM employees")
        = (if (lit ";").isSuffixOf ((lit "Sure! SELECT COUNT(*) FROM employees").drop 6)
           then (lit "Sure! SELECT COUNT(*) FROM employees").drop 6
           else (lit "Sure! SELECT COUNT(*) FROM employees").drop 6 ++ lit ";")
    ∧ _clean_sql_query (lit "Sure! SELECT COUNT(*) FROM employees")
        = lit "SELECT COUNT(*) FROM employees;" := by
  refine ⟨by decide, by decide, ?_, by decide⟩
  exact (C1_keyword_truncation (lit "Sure! SELECT COUNT(*) FROM employees")
    (lit "Sure! SELECT COUNT(*) FROM employees") (lit "SELECT") []
    [lit "INSERT", lit "UPDATE", lit "DELETE", lit "CREATE", lit "DROP", lit "ALTER", lit "WITH"]
    6 (by decide) rfl (by simp) (by decide) (by decide)).1

/-- Claim C4 as stated is false: `sel\x60\x60\x60 ect 1` contains no SQL
keyword, yet fence removal glues `sel` and `ect` into `select`, so the
extractor returns `select 1;` (not the trimmed original plus terminator) and
`execute_query` passes the format check and invokes the store. -/
theorem C4_counterexample :
    (∀ kw ∈ sql_keywords, containsSub kw (upper (lit "sel\x60\x60\x60 ect 1")) = false)
    ∧ _clean_sql_query (lit "sel\x60\x60\x60 ect 1") = lit "select 1;"
    ∧ _clean_sql_query (lit "sel\x60\x60\x60 ect 1") ≠ lit "sel\x60\x60\x60 ect 1;"
    ∧ startsWithKeyword (_clean_sql_query (lit "sel\x60\x60\x60 ect 1")) = true
    ∧ (execute_query_instr (fun _ => Except.ok (0 : Nat))
        (_clean_sql_query (lit "sel\x60\x60\x60 ect 1"))).2 = 1 := by
  exact ⟨by decide, by decide, by decide, by decide, rfl⟩

/-- Claim C4 (amended to texts whose fence-stripped trimmed form contains no
keyword): the extractor returns that trimmed fence-stripped text unchanged
except for the terminator appended when missing, and `execute_query` on the
result fails with `invalidFormat` without invoking the store. -/
theorem C4_no_keyword_passthrough {ρ : Type} (store : Str → Except Str ρ) (s t : Str)
    (ht : t = strip (removeTicksFence (removeSqlFence s)))
    (hno : ∀ kw ∈ sql_keywords, containsSub kw (upper t) = false) :
    _clean_sql_query s = (if (lit ";").isSuffixOf t then t else t ++ lit ";")
    ∧ startsWithKeyword (_clean_sql_query s) = false
    ∧ execute_query store (_clean_sql_query s)
        = Except.error (AgentError.invalidFormat ((_clean_sql_query s).take 50))
    ∧ (execute_query_instr store (_clean_sql_query s)).2 = 0 := by
  have hkt : keywordTruncate t = t := keywordTruncate_of_no_keyword t hno
  have hclean : _clean_sql_query s = if (lit ";").isSuffixOf t then t else t ++ lit ";" := by
    simp only [_clean_sql_query]
    rw [← ht, hkt]
  have hthead : ∀ c r, t = c :: r → isPySpace c = false := by
    intro c r h
    have h' : strip (removeTicksFence (removeSqlFence s)) = c :: r := by rw [← ht]; exact h
    exact strip_head_not_space h'
  have hmain : strip (_clean_sql_query s) = _clean_sql_query s
      ∧ _clean_sql_query s ≠ []
      ∧ startsWithKeyword (_clean_sql_query s) = false := by
    rw [hclean]
    by_cases hsemi : (lit ";").isSuffixOf t = true
    · rw [if_pos hsemi]
      obtain ⟨y, hy⟩ := (List.isSuffixOf_iff_suffix.mp hsemi : lit ";" <:+ t)
      have hstrip : strip t = t := by
        apply strip_eq_self_of t hthead
        intro c r h
        have hrev : t.reverse = ';' :: y.reverse := by
          rw [← hy]; simp [lit]
        rw [hrev] at h
        injection h with hcc _
        subst hcc
        decide
      have hne : t ≠ [] := by
        intro h0
        rw [h0] at hy
        simp [lit] at hy
      refine ⟨hstrip, hne, ?_⟩
      unfold startsWithKeyword
      rw [hstrip]
      apply any_eq_false_of
      intro kw hkw
      cases hb : kw.isPrefixOf (upper t)
      · rfl
      · exact absurd (containsSub_of_isPrefixOf hb) (by simp [hno kw hkw])
    · rw [if_neg hsemi]
      have hstrip : strip (t ++ lit ";") = t ++ lit ";" := strip_append_semi t hthead
      have hne : t ++ lit ";" ≠ [] := by simp [lit]
      refine ⟨hstrip, hne, ?_⟩
      unfold startsWithKeyword
      rw [hstrip]
      apply any_eq_false_of
      intro kw hkw
      cases hb : kw.isPrefixOf (upper (t ++ lit ";"))
      · rfl
      · exfalso
        have hup : upper (t ++ lit ";") = upper t ++ lit ";" := by
          simp only [upper, List.map_append]
          rfl
        rw [hup] at hb
        have hpre : kw <+: upper t ++ lit ";" := (isPrefixOf_eq_iff _ _).mp hb
        rcases prefix_snoc_cases hpre with hp | heq
        · have : containsSub kw (upper t) = true :=
            containsSub_of_isPrefixOf ((isPrefixOf_eq_iff _ _).mpr hp)
          simp [hno kw hkw] at this
        · have hmem : ';' ∈ kw := by
            rw [heq]
            exact List.mem_append_right _ (List.mem_singleton.mpr rfl)
          exact semicolon_not_in_keywords kw hkw hmem
  obtain ⟨hs1, hs2, hs3⟩ := hmain
  refine ⟨hclean, hs3, ?_, ?_⟩
  · simp [execute_query, execute_query_instr, hs1, hs2, hs3]
  · simp [execute_query_instr, hs1, hs2, hs3]

/-- Witness for C4 at a concrete keyword-free completion. -/
theorem C4_no_keyword_passthrough_witness :
    (∀ kw ∈ sql_keywords, containsSub kw (upper (lit "pure prose answer")) = false)
    ∧ _clean_sql_query (lit "pure prose answer")
        = (if (lit ";").isSuffixOf (lit "pure prose answer") then lit "pure prose answer"
           else lit "pure prose answer" ++ lit ";")
    ∧ execute_query (fun _ => Except.ok (0 : Nat)) (_clean_sql_query (lit "pure prose answer"))
        = Except.error
            (AgentError.invalidFormat ((_clean_sql_query (lit "pure prose answer")).take 50)) := by
  have h := C4_no_keyword_passthrough (fun _ => Except.ok (0 : Nat))
    (lit "pure prose answer") (lit "pure prose answer") (by decide) (by decide)
  exact ⟨by decide, h.1, h.2.2.1⟩

/-- Claim C5 as stated is false: the fenced statement `DROP TABLE selections`
starts with the allowed keyword `DROP`, yet the extractor returns
`selections;` — after fence removal the scan matches `SELECT` inside the
word `selections` and truncates there. -/
theorem C5_counterexample :
    (lit "DROP").isPrefixOf (upper (lit "DROP TABLE selections")) = true
    ∧ _clean_sql_query (lit "\x60\x60\x60sql\nDROP TABLE selections\n\x60\x60\x60")
        = lit "selections;"
    ∧ _clean_sql_query (lit "\x60\x60\x60sql\nDROP TABLE selections\n\x60\x60\x60")
        ≠ lit "DROP TABLE selections;" := by
  exact ⟨by decide, by decide, by decide⟩

/-- Claim C5 (amended): for a fenced statement (with the `sql` tag or bare)
that is trimmed, backtick-free, and on which the keyword scan truncates at
position 0 (the first list-ordered keyword occurring in it first occurs at
the start — in particular it starts with an allowed keyword), the extractor
returns exactly the statement with the fence delimiters removed and a
trailing semicolon appended when missing. -/
theorem C5_fenced_extraction (stmt kw : Str) (l₁ l₂ : List Str)
    (hs : strip stmt = stmt) (hne : stmt ≠ []) (hb : '\x60' ∉ stmt)
    (hsplit : sql_keywords = l₁ ++ kw :: l₂)
    (hbef : ∀ kw' ∈ l₁, containsSub kw' (upper stmt) = false)
    (hcon : containsSub kw (upper stmt) = true)
    (hfind : findSub kw (upper stmt) = some 0) :
    _clean_sql_query (lit "\x60\x60\x60sql\n" ++ stmt ++ lit "\n\x60\x60\x60")
      = (if (lit ";").isSuffixOf stmt then stmt else stmt ++ lit ";")
    ∧ _clean_sql_query (lit "\x60\x60\x60\n" ++ stmt ++ lit "\n\x60\x60\x60")
      = (if (lit ";").isSuffixOf stmt then stmt else stmt ++ lit ";") := by
  obtain ⟨c, w, rfl⟩ : ∃ c w, stmt = c :: w := by
    cases stmt with
    | nil => exact absurd rfl hne
    | cons c w => exact ⟨c, w, rfl⟩
  have hc_space : isPySpace c = false := strip_head_not_space hs
  have hc_tick : c ≠ '\x60' := fun h => hb (h ▸ List.mem_cons_self c w)
  have hw_tick : '\x60' ∉ w := fun h => hb (List.mem_cons_of_mem c h)
  have hthead : ∀ c' r', (c :: w : Str) = c' :: r' → isPySpace c' = false := by
    intro c' r' h
    injection h with h1 _
    subst h1
    exact hc_space
  have hlast : ∀ d rr, (c :: w : Str).reverse = d :: rr → isPySpace d = false := by
    intro d rr h
    exact strip_rev_head_not_space (s := c :: w) (by rw [hs]; exact h)
  have hmid : strip ((c :: w) ++ lit "\n") = c :: w := strip_append_nl (c :: w) hthead hlast
  have hktr : keywordTruncate (c :: w) = c :: w := by
    have h0 := keywordTruncate_eq_drop (c :: w) kw l₁ l₂ 0 hsplit hbef hcon hfind
    simpa using h0
  have htrail : rsfGo false (lit "\n\x60\x60\x60") = lit "\n\x60\x60\x60" := by decide
  have htrail2 : rtfGo false (lit "\n\x60\x60\x60") = lit "\n" := by decide
  have pass1 : rsfGo false (w ++ lit "\n\x60\x60\x60") = w ++ lit "\n\x60\x60\x60" := by
    rw [rsfGo_pass hw_tick, htrail]
  have pass2 : rtfGo false (w ++ lit "\n\x60\x60\x60") = w ++ lit "\n" := by
    rw [rtfGo_pass hw_tick, htrail2]
  have hsql : removeTicksFence
      (removeSqlFence (lit "\x60\x60\x60sql\n" ++ (c :: w) ++ lit "\n\x60\x60\x60"))
      = (c :: w) ++ lit "\n" := by
    have r1 : removeSqlFence (lit "\x60\x60\x60sql\n" ++ (c :: w) ++ lit "\n\x60\x60\x60")
        = rsfGo true ((c :: w) ++ lit "\n\x60\x60\x60") := rfl
    have r2 : rsfGo true ((c :: w) ++ lit "\n\x60\x60\x60")
        = c :: rsfGo false (w ++ lit "\n\x60\x60\x60") := by
      rw [List.cons_append]
      exact rsfGo_true_emit c _ hc_tick hc_space
    rw [r1, r2, pass1, ← List.cons_append]
    unfold removeTicksFence
    rw [rtfGo_pass hb, htrail2]
  have hbare : removeTicksFence
      (removeSqlFence (lit "\x60\x60\x60\n" ++ (c :: w) ++ lit "\n\x60\x60\x60"))
      = (c :: w) ++ lit "\n" := by
    have r1 : removeSqlFence (lit "\x60\x60\x60\n" ++ (c :: w) ++ lit "\n\x60\x60\x60")
        = '\x60' :: '\x60' :: '\x60' :: '\n' :: rsfGo false ((c :: w) ++ lit "\n\x60\x60\x60") := rfl
    have r2 : rsfGo false ((c :: w) ++ lit "\n\x60\x60\x60")
        = c :: rsfGo false (w ++ lit "\n\x60\x60\x60") := by
      rw [List.cons_append, rsfGo_eq_cons false c _ hc_tick]
      simp
    have r3 : removeSqlFence (lit "\x60\x60\x60\n" ++ (c :: w) ++ lit "\n\x60\x60\x60")
        = '\x60' :: '\x60' :: '\x60' :: '\n' :: ((c :: w) ++ lit "\n\x60\x60\x60") := by
      rw [r1, r2, pass1, ← List.cons_append]
    rw [r3]
    have r4 : removeTicksFence ('\x60' :: '\x60' :: '\x60' :: '\n' :: ((c :: w) ++ lit "\n\x60\x60\x60"))
        = rtfGo true ((c :: w) ++ lit "\n\x60\x60\x60") := rfl
    rw [r4, List.cons_append, rtfGo_true_emit c _ hc_tick hc_space, pass2, ← List.cons_append]
  have hfinal : ∀ input : Str,
      removeTicksFence (removeSqlFence input) = (c :: w) ++ lit "\n" →
      _clean_sql_query input
        = (if (lit ";").isSuffixOf (c :: w) then c :: w else (c :: w) ++ lit ";") := by
    intro input hi
    simp only [_clean_sql_query]
    rw [hi, hmid, hktr]
  exact ⟨hfinal _ hsql, hfinal _ hbare⟩

/-- Witness for C5 at the spec's scenario statement. -/
theorem C5_fenced_extraction_witness :
    strip (lit "SELECT * FROM sales LIMIT 10") = lit "SELECT * FROM sales LIMIT 10"
    ∧ ('\x60' ∉ lit "SELECT * FROM sales LIMIT 10")
    ∧ findSub (lit "SELECT") (upper (lit "SELECT * FROM sales LIMIT 10")) = some 0
    ∧ _clean_sql_query (lit "\x60\x60\x60sql\n" ++ lit "SELECT * FROM sales LIMIT 10" ++ lit "\n\x60\x60\x60")
        = (if (lit ";").isSuffixOf (lit "SELECT * FROM sales LIMIT 10")
           then lit "SELECT * FROM sales LIMIT 10"
           else lit "SELECT * FROM sales LIMIT 10" ++ lit ";")
    ∧ _clean_sql_query (lit "\x60\x60\x60sql\nSELECT * FROM sales LIMIT 10\n\x60\x60\x60")
        = lit "SELECT * FROM sales LIMIT 10;" := by
  refine ⟨by decide, by decide, by decide, ?_, by decide⟩
  exact (C5_fenced_extraction (lit "SELECT * FROM sales LIMIT 10") (lit "SELECT") []
    [lit "INSERT", lit "UPDATE", lit "DELETE", lit "CREATE", lit "DROP", lit "ALTER", lit "WITH"]
    (by decide) (by decide) (by decide) rfl (by simp) (by decide) (by decide)).1

/-- The per-table loop of `_create_schema_prompt` as a flattened map. -/
theorem schemaBody_eq (schema : List (Str × TableInfo)) :
    schemaBody schema
      = lit "Database Schema:\n\n" ++ (schema.map (fun p => renderTable p.1 p.2)).flatten := by
  unfold schemaBody
  exact foldl_append_eq (fun p : Str × TableInfo => renderTable p.1 p.2) schema _

/-- Claim C7: the rendered schema prompt contains, for each table of the
snapshot, the table-name line, every column line with its declared type and
every rendered sample-row line (of which at most 3 are rendered, from
`sample_data[:3]`); and the relationship-hints block is appended exactly
when the snapshot has more than one table. -/
theorem C7_schema_prompt (schema : List (Str × TableInfo)) (t : Str) (info : TableInfo)
    (h : (t, info) ∈ schema) :
    (lit "Table: " ++ t ++ lit "\n") <:+: _create_schema_prompt schema
    ∧ (∀ c ty, (c, ty) ∈ info.types → colLine c ty <:+: _create_schema_prompt schema)
    ∧ (∀ p ∈ (info.sample_data.take 3).enum, rowLine p.1 p.2 <:+: _create_schema_prompt schema)
    ∧ (info.sample_data.take 3).length ≤ 3
    ∧ (1 < schema.length →
        _create_schema_prompt schema = schemaBody schema ++ relationshipHints
        ∧ relationshipHints <:+: _create_schema_prompt schema)
    ∧ (schema.length ≤ 1 → _create_schema_prompt schema = schemaBody schema) := by
  have hrt : renderTable t info <:+: schemaBody schema := by
    rw [schemaBody_eq]
    apply infix_append_right
    apply infix_flatten_of_mem
    exact List.mem_map_of_mem (fun p : Str × TableInfo => renderTable p.1 p.2) h
  have hbody_prompt : schemaBody schema <:+: _create_schema_prompt schema := by
    unfold _create_schema_prompt
    split
    · exact infix_append_left _ List.infix_rfl
    · exact List.infix_rfl
  have hrt_prompt : renderTable t info <:+: _create_schema_prompt schema :=
    hrt.trans hbody_prompt
  refine ⟨?_, ?_, ?_, ?_, ?_, ?_⟩
  · refine List.IsInfix.trans ?_ hrt_prompt
    refine ⟨[], lit "Columns:\n" ++ (info.types.map (fun p => colLine p.1 p.2)).flatten
      ++ sampleSection info.sample_data ++ lit "\n", ?_⟩
    simp [renderTable, List.append_assoc]
  · intro c ty hcty
    refine List.IsInfix.trans ?_ hrt_prompt
    have hmem : colLine c ty ∈ info.types.map (fun p => colLine p.1 p.2) :=
      List.mem_map_of_mem (fun p : Str × Str => colLine p.1 p.2) hcty
    have hj := infix_flatten_of_mem hmem
    unfold renderTable
    simp only [List.append_assoc]
    exact infix_append_right _ (infix_append_right _ (infix_append_right _
      (infix_append_right _ (infix_append_left _ hj))))
  · intro p hp
    have hsne : ¬ info.sample_data = [] := by
      intro h0
      rw [h0] at hp
      simp at hp
    refine List.IsInfix.trans ?_ hrt_prompt
    have hmem : rowLine p.1 p.2 ∈ (info.sample_data.take 3).enum.map (fun q => rowLine q.1 q.2) :=
      List.mem_map_of_mem (fun q : Nat × Str => rowLine q.1 q.2) hp
    have hj := infix_flatten_of_mem hmem
    unfold renderTable sampleSection
    rw [if_neg hsne]
    simp only [List.append_assoc]
    exact infix_append_right _ (infix_append_right _ (infix_append_right _
      (infix_append_right _ (infix_append_right _ (infix_append_right _
        (infix_append_left _ hj))))))
  · rw [List.length_take]
    exact min_le_left _ _
  · intro h1
    unfold _create_schema_prompt
    rw [if_pos h1]
    exact ⟨rfl, ⟨schemaBody schema, [], by simp⟩⟩
  · intro h1
    unfold _create_schema_prompt
    rw [if_neg (by omega)]

/-- A one-table snapshot `t(a int, b text)` with 3 sample rows. -/
def exampleTableInfo : TableInfo where
  columns := [lit "a", lit "b"]
  types := [(lit "a", lit "int"), (lit "b", lit "text")]
  sample_data := [lit "r1", lit "r2", lit "r3"]

/-- A one-table Schema Snapshot for concrete checks. -/
def exampleSchema : List (Str × TableInfo) := [(lit "t", exampleTableInfo)]

/-- Witness for C7 at the spec's round-trip snapshot. -/
theorem C7_schema_prompt_witness :
    ((lit "t", exampleTableInfo) ∈ exampleSchema)
    ∧ ((lit "a", lit "int") ∈ exampleTableInfo.types)
    ∧ colLine (lit "a") (lit "int") <:+: _create_schema_prompt exampleSchema
    ∧ (lit "Table: " ++ lit "t" ++ lit "\n") <:+: _create_schema_prompt exampleSchema := by
  have h := C7_schema_prompt exampleSchema (lit "t") exampleTableInfo (by decide)
  exact ⟨by decide, by decide, h.2.1 _ _ (by decide), h.1⟩

/-- Claim C8: `get_sample_queries` is a pure function of the snapshot (two
applications to the same snapshot are equal), returns at most 10 questions,
and every returned question is one of the at-most-6 templates (row preview,
record count, unique values of the first column, and for numeric columns
average, maximum, top 5) of some table of the snapshot. -/
theorem C8_sample_queries (schema : List (Str × TableInfo)) (q : Str)
    (hq : q ∈ get_sample_queries schema) :
    get_sample_queries schema = get_sample_queries schema
    ∧ (get_sample_queries schema).length ≤ 10
    ∧ ∃ t info, (t, info) ∈ schema ∧ q ∈ perTableQueries t info
        ∧ (perTableQueries t info).length ≤ 6 := by
  have heq : get_sample_queries schema
      = ((schema.map (fun p => perTableQueries p.1 p.2)).flatten).take 10 := by
    unfold get_sample_queries
    rw [foldl_append_eq (fun p : Str × TableInfo => perTableQueries p.1 p.2) schema []]
    simp
  refine ⟨rfl, ?_, ?_⟩
  · rw [heq, List.length_take]
    exact min_le_left _ _
  · rw [heq] at hq
    have hq2 : q ∈ (schema.map (fun p => perTableQueries p.1 p.2)).flatten :=
      List.mem_of_mem_take hq
    obtain ⟨l, hl, hql⟩ := List.mem_flatten.mp hq2
    obtain ⟨p, hp, rfl⟩ := List.mem_map.mp hl
    refine ⟨p.1, p.2, by simpa using hp, hql, ?_⟩
    unfold perTableQueries
    cases hnc : numericCols p.2.types <;> simp

/-- Witness for C8 at the example snapshot. -/
theorem C8_sample_queries_witness :
    (lit "Show me the first 10 rows from " ++ lit "t") ∈ get_sample_queries exampleSchema
    ∧ (get_sample_queries exampleSchema).length ≤ 10 := by
  have h := C8_sample_queries exampleSchema
    (lit "Show me the first 10 rows from " ++ lit "t") (by decide)
  exact ⟨by decide, h.2.1⟩

/-- Claim C9: Schema Snapshot construction visits every table (the snapshot
has one entry per table, names in order); a table whose bounded sample fetch
fails gets an empty sample list while its columns and types are still
recorded, and construction does not abort. -/
theorem C9_schema_sampling_isolated (tables : List (Str × List ColumnMeta))
    (read_sql_query : Str → Except Str (List Str)) (i : Nat) (t : Str)
    (cols : List ColumnMeta) (e : Str)
    (hget : tables[i]? = some (t, cols))
    (hfail : read_sql_query (lit "SELECT * FROM " ++ t ++ lit " LIMIT 5") = Except.error e) :
    (_get_database_schema tables read_sql_query).length = tables.length
    ∧ (_get_database_schema tables read_sql_query).map Prod.fst = tables.map Prod.fst
    ∧ (_get_database_schema tables read_sql_query)[i]? =
        some (t, { columns := cols.map ColumnMeta.name
                   types := cols.map (fun c => (c.name, c.type))
                   sample_data := [] }) := by
  refine ⟨by simp [_get_database_schema], ?_, ?_⟩
  · unfold _get_database_schema
    rw [List.map_map]
    rfl
  · have hfail2 : read_sql_query (lit "SELECT * FROM " ++ (t ++ lit " LIMIT 5"))
        = Except.error e := by
      rw [← List.append_assoc]
      exact hfail
    unfold _get_database_schema
    rw [List.getElem?_map, hget]
    simp [hfail, hfail2]

/-- A two-table inspection result for concrete checks. -/
def exampleTables : List (Str × List ColumnMeta) :=
  [(lit "a", [{ name := lit "x", type := lit "int" }]),
   (lit "b", [{ name := lit "y", type := lit "text" }])]

/-- A sample fetch that fails on table `a` and succeeds elsewhere. -/
def exampleFetch : Str → Except Str (List Str) := fun q =>
  if q = lit "SELECT * FROM a LIMIT 5" then Except.error (lit "permission denied")
  else Except.ok [lit "row0"]

/-- Witness for C9 at the example inspection with a failing fetch on `a`. -/
theorem C9_schema_sampling_isolated_witness :
    exampleTables[0]? = some (lit "a", [{ name := lit "x", type := lit "int" }])
    ∧ exampleFetch (lit "SELECT * FROM " ++ lit "a" ++ lit " LIMIT 5")
        = Except.error (lit "permission denied")
    ∧ (_get_database_schema exampleTables exampleFetch).length = exampleTables.length
    ∧ (_get_database_schema exampleTables exampleFetch)[0]? =
        some (lit "a", { columns := [lit "x"]
                         types := [(lit "x", lit "int")]
                         sample_data := [] }) := by
  have h := C9_schema_sampling_isolated exampleTables exampleFetch 0 (lit "a")
    [{ name := lit "x", type := lit "int" }] (lit "permission denied") rfl rfl
  exact ⟨rfl, rfl, h.1, h.2.2⟩

